import Mathlib

/-!
Verification of the chunked translation pipeline of the Trans_Clone repository.

The Python sources embedded here are:
  * `src/core/translation_engine.py` — `TranslationEngine` (response parsing,
    validation, retry graph, history recording, chunk translation);
  * `src/core/file_manager.py` — `FileManager.prepare_optimized_translation_chunks`;
  * `src/models/data_structures.py` — `TranslationChunk`, `HistoryEntry`.

Python strings are modelled as `List Char` (per-character semantics, matching
Python's code-point indexing and slicing); this keeps every operation reducible
by the kernel.  JSON values produced by `json.loads` are modelled by `PyJson`.
External collaborators (`json.loads`, `re.search`, the quote-repair `re.sub`,
and the LLM invocation) are parameters of the embedded functions: the embedded
control flow around them is exactly the source's.
-/

namespace TransClone

/-- Model of a decoded JSON value as produced by Python's `json.loads`
(floats are not needed by any claim; numbers are modelled as integers). -/
inductive PyJson where
  | null
  | bool (b : Bool)
  | num (n : Int)
  | str (s : String)
  | arr (items : List PyJson)
  | obj (fields : List (String × PyJson))

/-- Key lookup in a decoded JSON object (`item["k"]` / `"k" in item`).
`json.loads` keeps the last duplicate key; objects in this model are assumed
duplicate-free, so first-match lookup is equivalent. -/
def lookupKey : List (String × PyJson) → String → Option PyJson
  | [], _ => none
  | (k, v) :: rest, key => if k = key then some v else lookupKey rest key

/-- `isinstance(item, dict) and "line" in item and "text" in item`
(translation_engine.py line 492). -/
def isWellFormedItem : PyJson → Bool
  | PyJson.obj kvs => (lookupKey kvs "line").isSome && (lookupKey kvs "text").isSome
  | _ => false

/-- `isinstance(x, dict)`. -/
def isObjJson : PyJson → Bool
  | PyJson.obj _ => true
  | _ => false

/-- `item["text"]`; the parser only yields dict items containing the key, so
the KeyError path is unreachable and the default is never produced. -/
def pyGet (j : PyJson) (k : String) : PyJson :=
  match j with
  | PyJson.obj kvs => (lookupKey kvs k).getD PyJson.null
  | _ => PyJson.null

/-- `item.get(k, d)` (translation_engine.py line 309). -/
def pyGetD (j : PyJson) (k : String) (d : PyJson) : PyJson :=
  match j with
  | PyJson.obj kvs => (lookupKey kvs k).getD d
  | _ => d

/-- Python `needle in hay` substring test on strings. -/
def containsSub (needle : List Char) : List Char → Bool
  | [] => needle.isEmpty
  | c :: rest => needle.isPrefixOf (c :: rest) || containsSub needle rest

/-- Python `s.strip()`: drop whitespace from both ends. -/
def pyStrip (cs : List Char) : List Char :=
  ((cs.dropWhile Char.isWhitespace).reverse.dropWhile Char.isWhitespace).reverse

/-- Contribution of one character to the running `brace_count`
(translation_engine.py lines 435-438). -/
def braceDelta (c : Char) : Int :=
  if c = '{' then 1 else if c = '}' then -1 else 0

/-- Contribution of one character to the running `bracket_count`
(translation_engine.py lines 439-442). -/
def bracketDelta (c : Char) : Int :=
  if c = '[' then 1 else if c = ']' then -1 else 0

/-- Net brace count of a string (number of `{` minus number of `}`). -/
def braceNet : List Char → Int
  | [] => 0
  | c :: rest => braceDelta c + braceNet rest

/-- Net bracket count of a string (number of `[` minus number of `]`). -/
def bracketNet : List Char → Int
  | [] => 0
  | c :: rest => bracketDelta c + bracketNet rest

/-- The character scan of translation_engine.py lines 430-446: walk the string
keeping running brace/bracket counts, remembering the last index `i > 0` at
which both counts are zero.  Python initialises `last_valid_pos = -1` and only
stores indices `i > 0`, then tests `last_valid_pos > 0`; initialising with `0`
over `Nat` is indistinguishable under that test. -/
def scanLastZero : Nat → Int → Int → Nat → List Char → Nat
  | _, _, _, last, [] => last
  | i, braces, brackets, last, c :: rest =>
    let braces2 := braces + braceDelta c
    let brackets2 := brackets + bracketDelta c
    let last2 := if braces2 = 0 ∧ brackets2 = 0 ∧ 0 < i then i else last
    scanLastZero (i + 1) braces2 brackets2 last2 rest

/-- translation_engine.py lines 428-449: when the cleaned output ends in
neither `}` nor `]`, truncate it to `[: last_valid_pos + 1]` provided
`last_valid_pos > 0`. -/
def fixIncompleteJson (cs : List Char) : List Char :=
  if ['}'].isSuffixOf cs ∨ "]".toList.isSuffixOf cs then cs
  else
    let p := scanLastZero 0 0 0 0 cs
    if 0 < p then cs.take (p + 1) else cs

/-- translation_engine.py line 424, `re.sub(r"\.\.\.+\s*$", "", s)`: remove a
final run of three or more dots together with any whitespace after it. -/
def stripTrailingEllipsis (cs : List Char) : List Char :=
  let noWs := (cs.reverse.dropWhile Char.isWhitespace).reverse
  let noDots := (noWs.reverse.dropWhile (fun c => c = '.')).reverse
  if 3 ≤ noWs.length - noDots.length then noDots else cs

/-- translation_engine.py lines 411-449: strip, remove markdown fences, remove
a trailing ellipsis, strip again, then repair incomplete JSON. -/
def cleanOutput (raw : List Char) : List Char :=
  let c0 := pyStrip raw
  let c1 := if "```json".toList.isPrefixOf c0 then c0.drop 7
            else if "```".toList.isPrefixOf c0 then c0.drop 3 else c0
  let c2 := if "```".toList.isSuffixOf c1 then c1.take (c1.length - 3) else c1
  let c3 := pyStrip (stripTrailingEllipsis c2)
  fixIncompleteJson c3

/-- `TranslationEngine._parse_translation_response` (lines 406-502).
`jsonLoads` stands for `json.loads` (returning `none` on `JSONDecodeError`),
`reSearchTranslation` for the `re.search` extracting a `"translation"` object
substring, and `quoteRepair` for the last-resort quote-escaping `re.sub`.
Every `raise` inside the function is caught by the outer `except`, which
returns `[]`.  `expected_count` is accepted but never used by the body.
This definition is lines 451-474: the decode attempts — `json.loads` on the
cleaned output, else the regex-extracted substring, else its quote-repaired
form (`none` both when the regex finds nothing, modelling the
`raise ValueError`, and when the last decode fails). -/
def decodeResponseData (jsonLoads : List Char → Option PyJson)
    (reSearchTranslation : List Char → Option (List Char))
    (quoteRepair : List Char → List Char) (cleaned : List Char) : Option PyJson :=
  match jsonLoads cleaned with
  | some d => some d
  | none =>
    match reSearchTranslation cleaned with
    | some m =>
      match jsonLoads m with
      | some d => some d
      | none => jsonLoads (quoteRepair m)
    | none => none

/-- Lines 476-497 of `_parse_translation_response`: extract the translation
array (a dict's `"translation"` field, or the decoded value itself when it is
already a list), then keep exactly the well-formed items in order; every
`raise`, and a failed decode, lands in the outer `except`, which returns
`[]`. -/
def extractTranslationItems : Option PyJson → List PyJson
  | none => []
  | some data =>
    let translationsQ : Option PyJson :=
      match data with
      | PyJson.obj kvs => lookupKey kvs "translation"
      | PyJson.arr xs => some (PyJson.arr xs)
      | _ => none
    match translationsQ with
    | none => []
    | some t =>
      match t with
      | PyJson.arr items => items.filter isWellFormedItem
      | _ => []

/-- `TranslationEngine._parse_translation_response` (lines 406-502): clean the
raw output, decode it, extract the well-formed translation items. -/
def parse_translation_response (jsonLoads : List Char → Option PyJson)
    (reSearchTranslation : List Char → Option (List Char))
    (quoteRepair : List Char → List Char)
    (raw_output : List Char) (expected_count : Nat) : List PyJson :=
  extractTranslationItems
    (decodeResponseData jsonLoads reSearchTranslation quoteRepair (cleanOutput raw_output))

/-- The `metadata` dict attached to each chunk line
(file_manager.py lines 369-372). -/
structure ChunkItemMeta where
  chunk_id : Nat
  position_in_chunk : Nat
deriving DecidableEq

/-- One entry of `chunk.original_texts` as built by
`prepare_optimized_translation_chunks` (file_manager.py lines 365-374). -/
structure SourceItem where
  line : Nat
  text : List Char
  metadata : ChunkItemMeta
deriving DecidableEq

/-- `TranslationChunk` (data_structures.py lines 86-101); the context fields
`has_context`/`context_chunks` play no role in any claim and are omitted.
`translated_texts` holds the values extracted from the parsed response. -/
structure TranslationChunk where
  chunk_id : Nat
  original_texts : List SourceItem
  translated_texts : List PyJson := []
  start_row : Nat := 0
  end_row : Nat := 0
  target_column : String := "Initial"
  status : String := "pending"
  error_message : String := ""

/-- `HistoryEntry` (data_structures.py lines 135-147); `context_data` defaults
to an empty dict and is never passed, so it is omitted here.  The field that
matters is `content`: the dataclass has no `parts` field. -/
structure HistoryEntry where
  role : String
  content : String
  timestamp : String := ""
  model_name : String := ""

/-- The field names of the `HistoryEntry` dataclass. -/
def HistoryEntryFieldNames : List String :=
  ["role", "content", "timestamp", "model_name", "context_data"]

/-- The `HistoryEntry` fields without a default value. -/
def HistoryEntryRequiredNames : List String := ["role", "content"]

/-- The keyword arguments passed to both `HistoryEntry(...)` calls inside
`TranslationEngine._update_history` (translation_engine.py lines 521-537). -/
def updateHistoryKwargNames : List String := ["role", "parts", "timestamp", "model_name"]

/-- A Python dataclass call succeeds exactly when every provided keyword is a
field and every field without a default is provided; otherwise `__init__`
raises `TypeError`. -/
def dataclassCallAccepted (fields required provided : List String) : Bool :=
  provided.all (fun k => fields.contains k) && required.all (fun k => provided.contains k)

/-- `TranslationEngine._update_history` (lines 504-540).  Both
`HistoryEntry(...)` calls pass `parts=...`, which is not a `HistoryEntry`
field (and omit the required `content`), so the first constructor call raises
`TypeError`; the surrounding `except Exception` swallows it and
`self.history` is left unchanged.  The then-branch below is what the code
tries to do and is unreachable. -/
def update_history (history : List HistoryEntry) (chunk : TranslationChunk) : List HistoryEntry :=
  if dataclassCallAccepted HistoryEntryFieldNames HistoryEntryRequiredNames
      updateHistoryKwargNames then
    history ++
      [{ role := "user", content := "Translate texts request" },
       { role := "model", content := "translation result json" }]
  else
    history

/-- Outcome of one `model.invoke(messages)` call: either an exception or the
raw response text. -/
inductive InvokeOutcome where
  | exception (msg : String)
  | response (raw : List Char)

/-- `TranslationEngine.translate_chunk` (lines 562-612), the synchronous path.
`modelAvailable` models `self.models.get(provider.value)` being non-None.
On any failure only `chunk.status` is set to `"failed"`; `translated_texts`
is not touched.  On success `_update_history` is called, which (see
`update_history`) has no effect on the chunk. -/
def translate_chunk (jsonLoads : List Char → Option PyJson)
    (reSearchTranslation : List Char → Option (List Char))
    (quoteRepair : List Char → List Char)
    (modelAvailable : Bool) (outcome : InvokeOutcome)
    (chunk : TranslationChunk) : TranslationChunk :=
  if modelAvailable = false then { chunk with status := "failed" }
  else
    match outcome with
    | InvokeOutcome.exception _ => { chunk with status := "failed" }
    | InvokeOutcome.response raw =>
      let parsed := parse_translation_response jsonLoads reSearchTranslation quoteRepair
          raw chunk.original_texts.length
      if parsed.isEmpty then { chunk with status := "failed" }
      else
        { chunk with
            translated_texts := parsed.map (fun item => pyGet item "text"),
            status := "completed" }

/-- The loop body of `TranslationEngine.translate_chunks` (lines 614-639),
indexed by position so that each chunk gets its own invocation outcome.
`progress_callback` and the inter-chunk `time.sleep` do not affect the
returned chunks and are not modelled. -/
def translate_chunks_from (jsonLoads : List Char → Option PyJson)
    (reSearchTranslation : List Char → Option (List Char))
    (quoteRepair : List Char → List Char)
    (modelAvailable : Bool) (outcomes : Nat → InvokeOutcome) :
    Nat → List TranslationChunk → List TranslationChunk
  | _, [] => []
  | i, c :: rest =>
    translate_chunk jsonLoads reSearchTranslation quoteRepair modelAvailable (outcomes i) c ::
      translate_chunks_from jsonLoads reSearchTranslation quoteRepair modelAvailable outcomes
        (i + 1) rest

/-- `TranslationEngine.translate_chunks` (lines 614-639). -/
def translate_chunks (jsonLoads : List Char → Option PyJson)
    (reSearchTranslation : List Char → Option (List Char))
    (quoteRepair : List Char → List Char)
    (modelAvailable : Bool) (outcomes : Nat → InvokeOutcome)
    (chunks : List TranslationChunk) : List TranslationChunk :=
  translate_chunks_from jsonLoads reSearchTranslation quoteRepair modelAvailable outcomes 0 chunks

/-- `TranslationState` (translation_engine.py lines 38-47) restricted to the
fields the graph nodes read or write (`messages` and `request` are carried
through unchanged and are not modelled). -/
structure GraphState where
  chunk : TranslationChunk
  result : List PyJson := []
  error : String := ""
  retry_count : Nat := 0

/-- Python hashability of a decoded JSON value: lists and dicts are
unhashable, so inserting one into a set raises `TypeError`; `None`, booleans,
numbers and strings are hashable. -/
def pyUnhashable : PyJson → Bool
  | PyJson.arr _ => true
  | PyJson.obj _ => true
  | _ => false

/-- The set comprehension of `_validate_result` line 339-341,
`{item["line"] for item in state.result if "line" in item}`, with Python's
exception semantics: `"line" in item` on a `str` is a substring test and on a
`list` a membership test, after which `item["line"]` raises `TypeError`; on
other non-dict values `in` itself raises `TypeError`; and inserting an
unhashable `item["line"]` value (a list or dict) into the set raises
`TypeError` at that item. -/
def collectLines : List PyJson → Except String (List PyJson)
  | [] => Except.ok []
  | j :: rest =>
    match j with
    | PyJson.obj kvs =>
      match lookupKey kvs "line" with
      | some v =>
        if pyUnhashable v then Except.error "TypeError"
        else
          match collectLines rest with
          | Except.ok ls => Except.ok (v :: ls)
          | Except.error e => Except.error e
      | none => collectLines rest
    | PyJson.str s =>
      if containsSub "line".toList s.toList then Except.error "TypeError"
      else collectLines rest
    | PyJson.arr xs =>
      if xs.any (fun x => match x with | PyJson.str t => t = "line" | _ => false) then
        Except.error "TypeError"
      else collectLines rest
    | _ => Except.error "TypeError"

/-- The `"line"` field of a dict item, if any. -/
def jsonLineField : PyJson → Option PyJson
  | PyJson.obj kvs => lookupKey kvs "line"
  | _ => none

/-- An item's `"line"` value, when present, can be inserted into the
`result_lines` set without raising (it is not a list or dict). -/
def lineValueHashable (j : PyJson) : Bool :=
  match jsonLineField j with
  | some v => !(pyUnhashable v)
  | none => true

/-- The line values appearing in a result list (the successful value of
`collectLines` when every item is a dict). -/
def resultLineVals (items : List PyJson) : List PyJson :=
  items.filterMap jsonLineField

/-- `expected_lines = {item["line"] for item in state.chunk.original_texts}`
(lines 330-333); `original_texts` entries are the chunk-builder dicts. -/
def expectedLineVals (c : TranslationChunk) : List Int :=
  c.original_texts.map (fun it => (it.line : Int))

/-- Python `==` between an `int` and a decoded JSON value
(`True == 1` and `False == 0` in Python). -/
def pyIntEqJson (e : Int) : PyJson → Bool
  | PyJson.num n => n == e
  | PyJson.bool b => (if b then (1 : Int) else 0) == e
  | _ => false

/-- `expected_lines.issubset(result_lines)` with Python `==` semantics. -/
def lineSubset (expected : List Int) (rlines : List PyJson) : Bool :=
  expected.all (fun e => rlines.any (pyIntEqJson e))

/-- `TranslationEngine._validate_result` (lines 318-359).  The first branch
(`isinstance(state.result[0], dict)`) compares the expected line set against
the returned line set by a subset test; the second compares only the counts.
An empty `original_texts` makes `original_texts[0]` raise `IndexError`,
caught by the `except` as a validation error. -/
def validate_result (s : GraphState) : GraphState :=
  if s.result.isEmpty then { s with error := "No translation result" }
  else
    match s.result with
    | [] => s
    | h :: _ =>
      match h with
      | PyJson.obj _ =>
        match s.chunk.original_texts with
        | [] => { s with error := "Validation error" }
        | _ :: _ =>
          match collectLines s.result with
          | Except.error _ => { s with error := "Validation error" }
          | Except.ok rlines =>
            if lineSubset (expectedLineVals s.chunk) rlines then s
            else { s with error := "Missing translation for lines" }
      | _ =>
        if s.result.length ≠ s.chunk.original_texts.length then
          { s with error := "Translation count mismatch" }
        else s

/-- `TranslationEngine._retry_translation` (lines 361-365): bump the retry
counter and clear the previous error. -/
def retry_translation (s : GraphState) : GraphState :=
  { s with retry_count := s.retry_count + 1, error := "" }

/-- `TranslationEngine._finalize_result` (lines 367-391).  The call to
`self._update_history(state)` raises `AttributeError` inside
`_update_history`'s own `try`, which swallows it, so it has no effect. -/
def finalize_result (s : GraphState) : GraphState :=
  if s.error ≠ "" then
    { s with chunk := { s.chunk with
        status := "failed", error_message := s.error, translated_texts := [] } }
  else
    { s with chunk := { s.chunk with
        status := "completed", translated_texts := s.result, error_message := "" } }

/-- `TranslationEngine._translate_chunk` (lines 273-316), the graph node:
invoke the model (outcome supplied by `oracle` per attempt), parse the
response with `expected_count = len(state.chunk.original_texts)`, store the
extracted texts in `state.result` or an error in `state.error`. -/
def graph_translate_node (jsonLoads : List Char → Option PyJson)
    (reSearchTranslation : List Char → Option (List Char))
    (quoteRepair : List Char → List Char)
    (modelAvailable : Bool) (outcome : InvokeOutcome) (s : GraphState) : GraphState :=
  if modelAvailable = false then { s with error := "No model available for provider" }
  else
    match outcome with
    | InvokeOutcome.exception m => { s with error := "Translation error: " ++ m }
    | InvokeOutcome.response raw =>
      let parsed := parse_translation_response jsonLoads reSearchTranslation quoteRepair
          raw s.chunk.original_texts.length
      if parsed.isEmpty then { s with error := "Failed to parse translation response" }
      else { s with result := parsed.map (fun item => pyGetD item "text" (PyJson.str "")) }

/-- The compiled LangGraph workflow (translation_engine.py lines 165-197):
`translate_chunk` then, via `_should_validate`, either `validate_result`
(no error) or `retry_translation`; `validate_result` goes on to
`finalize_result` on success or `retry_translation` on error
(`_should_retry`); `retry_translation` loops back to `translate_chunk` while
`retry_count < max_retries` and otherwise falls through to `finalize_result`
(`_should_continue_retry`).  The second component counts model invocations;
`fuel` bounds the loop (any `fuel > max_retries` is enough). -/
def run_translation_graph_loop (jsonLoads : List Char → Option PyJson)
    (reSearchTranslation : List Char → Option (List Char))
    (quoteRepair : List Char → List Char)
    (modelAvailable : Bool) (oracle : Nat → InvokeOutcome) (maxRetries : Nat) :
    Nat → Nat → GraphState → GraphState × Nat
  | 0, inv, s => (s, inv)
  | fuel + 1, inv, s =>
    let s1 := graph_translate_node jsonLoads reSearchTranslation quoteRepair modelAvailable
        (oracle inv) s
    let inv1 := inv + 1
    if s1.error = "" then
      let s2 := validate_result s1
      if s2.error = "" then (finalize_result s2, inv1)
      else
        let s3 := retry_translation s2
        if s3.retry_count < maxRetries then
          run_translation_graph_loop jsonLoads reSearchTranslation quoteRepair modelAvailable
            oracle maxRetries fuel inv1 s3
        else (finalize_result s3, inv1)
    else
      let s3 := retry_translation s1
      if s3.retry_count < maxRetries then
        run_translation_graph_loop jsonLoads reSearchTranslation quoteRepair modelAvailable
          oracle maxRetries fuel inv1 s3
      else (finalize_result s3, inv1)

/-- Run the graph from a fresh state for a chunk (`translate_chunk_async`,
lines 542-560).  `_prepare_request` only assembles the prompt messages, which
are not tracked, so it is the identity on the tracked state. -/
def run_translation_graph (jsonLoads : List Char → Option PyJson)
    (reSearchTranslation : List Char → Option (List Char))
    (quoteRepair : List Char → List Char)
    (modelAvailable : Bool) (oracle : Nat → InvokeOutcome) (maxRetries : Nat)
    (chunk : TranslationChunk) : GraphState × Nat :=
  run_translation_graph_loop jsonLoads reSearchTranslation quoteRepair modelAvailable oracle
    maxRetries (maxRetries + 1) 0 { chunk := chunk }

/-- `notna` plus `astype(str).strip() != ""` — the row filter of
`prepare_optimized_translation_chunks` (file_manager.py lines 336-339). -/
def notBlankCell : Option (List Char) → Bool
  | none => false
  | some s => !(pyStrip s).isEmpty

/-- The string content of a surviving cell (cells are already non-null after
the filter, so the `none` case is unreachable). -/
def cellChars : Option (List Char) → List Char
  | none => []
  | some s => s

/-- The filtered rows: original row index paired with the cell text
(`non_empty_data`, file_manager.py lines 336-339; the dataframe's integer
index is the row's position in the column). -/
def nonEmptyData (col : List (Option (List Char))) : List (Nat × List Char) :=
  (col.enum.filter (fun p => notBlankCell p.2)).map (fun p => (p.1, cellChars p.2))

/-- The inner loop of file_manager.py lines 362-374: for each row of the
slice (with `enumerate` position `pos`), strip the text and, when non-empty,
emit the dict `{"line": row_idx + 1, "text": text, "metadata": {...}}`. -/
def mkChunkItems (cid : Nat) : Nat → List (Nat × List Char) → List SourceItem
  | _, [] => []
  | pos, (i, s) :: rest =>
    let text := pyStrip s
    if text.isEmpty then mkChunkItems cid (pos + 1) rest
    else { line := i + 1, text := text, metadata := { chunk_id := cid, position_in_chunk := pos } } ::
      mkChunkItems cid (pos + 1) rest

/-- `if max_chunks and len(chunks) >= max_chunks: break`
(file_manager.py lines 380-381); `max_chunks = 0` is falsy. -/
def stopAfterChunks : Option Nat → Nat → Bool
  | none, _ => false
  | some m, k => if m = 0 then false else decide (m ≤ k)

/-- The chunking loop of file_manager.py lines 348-381: slice the filtered
rows `chunk_size` at a time; build the items of the slice; append the chunk
when it has items (`chunk_id = len(chunks)` at creation, tracked by `acc`);
stop early when the `max_chunks` cap is reached. -/
def buildChunks (n : Nat) (maxChunks : Option Nat) :
    Nat → List (Nat × List Char) → List TranslationChunk
  | _, [] => []
  | acc, r :: rest =>
    let items := mkChunkItems acc 0 (r :: rest.take (n - 1))
    let restAfter := rest.drop (n - 1)
    if items.isEmpty then
      if stopAfterChunks maxChunks acc then [] else buildChunks n maxChunks acc restAfter
    else
      let chunk : TranslationChunk :=
        { chunk_id := acc, original_texts := items,
          start_row := r.1, end_row := ((r :: rest.take (n - 1)).getLast (by simp)).1,
          status := "pending" }
      if stopAfterChunks maxChunks (acc + 1) then [chunk]
      else chunk :: buildChunks n maxChunks (acc + 1) restAfter
  termination_by acc rows => rows.length
  decreasing_by all_goals simp [List.length_drop]; omega

/-- `FileManager.prepare_optimized_translation_chunks` (lines 320-383) on one
column.  `chunk_size or AppSettings.DEFAULT_CHUNK_SIZE` makes both `None` and
`0` fall back to the default `50` (settings.py line 35). -/
def prepare_optimized_translation_chunks (col : List (Option (List Char)))
    (chunk_size : Option Nat) (max_chunks : Option Nat) : List TranslationChunk :=
  let n := match chunk_size with
           | none => 50
           | some 0 => 50
           | some k => k
  buildChunks n max_chunks 0 (nonEmptyData col)

/-- Specification-side notion (C6's wording): brace/bracket matching with a
stack — a string is fully balanced when every closer matches the nearest
unmatched opener of the same kind and no opener is left unmatched. -/
def balancedBracketsAux : List Char → List Char → Bool
  | stack, [] => stack.isEmpty
  | stack, c :: rest =>
    if c = '{' ∨ c = '[' then balancedBracketsAux (c :: stack) rest
    else if c = '}' then
      match stack with
      | '{' :: s => balancedBracketsAux s rest
      | _ => false
    else if c = ']' then
      match stack with
      | '[' :: s => balancedBracketsAux s rest
      | _ => false
    else balancedBracketsAux stack rest

/-- A string is fully balanced in curly braces and square brackets. -/
def balancedBrackets (cs : List Char) : Bool := balancedBracketsAux [] cs

/-- Specification-side (C6's wording): prefix length `nn` is non-trivial
(at least two characters, matching the code's `last_valid_pos > 0` guard) and
the prefix is fully balanced. -/
abbrev nontrivialBalancedPrefix (cs : List Char) (nn : Nat) : Prop :=
  2 ≤ nn ∧ balancedBrackets (cs.take nn) = true

/-- Length of the longest non-trivial fully balanced prefix (0 when none). -/
def longestBalancedPrefixLen (cs : List Char) : Nat :=
  Nat.findGreatest (nontrivialBalancedPrefix cs) cs.length

/-- Position `j ≥ 1` at which the running net brace and bracket counts of the
prefix `cs[0..j]` are both zero — the positions the code's scan records. -/
abbrev netZeroPrefixPos (cs : List Char) (j : Nat) : Prop :=
  1 ≤ j ∧ braceNet (cs.take (j + 1)) = 0 ∧ bracketNet (cs.take (j + 1)) = 0

/-- Count of non-blank source lines in a chunk (C2's wording; the chunk
builder only ever stores non-blank lines, so this is the item count for
builder-produced chunks). -/
def nonBlankSourceCount (c : TranslationChunk) : Nat :=
  (c.original_texts.filter (fun it => !(pyStrip it.text).isEmpty)).length

/-- A `json.loads` model that always fails to decode. -/
def noJson : List Char → Option PyJson := fun _ => none

/-- A `re.search` model that never matches. -/
def noMatch : List Char → Option (List Char) := fun _ => none

/-- A quote-repair model that leaves its input unchanged. -/
def noRepair : List Char → List Char := fun s => s

/-- A model invocation that raises on every attempt. -/
def alwaysRaise : Nat → InvokeOutcome := fun _ => InvokeOutcome.exception "boom"

/-- A one-line chunk as produced by the chunk builder. -/
def c1Chunk : TranslationChunk :=
  { chunk_id := 0,
    original_texts := [{ line := 1, text := ['a'], metadata := { chunk_id := 0, position_in_chunk := 0 } }],
    start_row := 0, end_row := 0, status := "pending" }

/-- A two-line chunk as produced by the chunk builder. -/
def c2Chunk : TranslationChunk :=
  { chunk_id := 0,
    original_texts :=
      [{ line := 1, text := ['a'], metadata := { chunk_id := 0, position_in_chunk := 0 } },
       { line := 2, text := ['b'], metadata := { chunk_id := 0, position_in_chunk := 1 } }],
    start_row := 0, end_row := 1, status := "pending" }

/-- A well-formed response item for line 1. -/
def demoItem : PyJson := PyJson.obj [("line", PyJson.num 1), ("text", PyJson.str "xin")]

/-- A decoded provider response holding exactly one translation item. -/
def oneItemJson : PyJson := PyJson.obj [("translation", PyJson.arr [demoItem])]

/-- A `json.loads` model that decodes the raw text `R` to `oneItemJson`. -/
def decodeOneItem : List Char → Option PyJson :=
  fun s => if s = ['R'] then some oneItemJson else none

/-- C7's premise on items: the `k`-th item (1-based) carries `"line": k`. -/
def linesMatchFrom : Nat → List PyJson → Bool
  | _, [] => true
  | k, j :: rest =>
    (match j with
     | PyJson.obj kvs =>
       match lookupKey kvs "line" with
       | some (PyJson.num n) => n == (k : Int)
       | _ => false
     | _ => false) && linesMatchFrom (k + 1) rest

/-- A one-line chunk whose graph state carries a dict-format result with the
extra line 2 (for the validator claim). -/
def c4State : GraphState :=
  { chunk := c1Chunk,
    result :=
      [PyJson.obj [("line", PyJson.num 1), ("text", PyJson.str "x")],
       PyJson.obj [("line", PyJson.num 2), ("text", PyJson.str "y")]] }

/-- A graph state whose dict-format result covers exactly the expected line. -/
def c4OkState : GraphState :=
  { chunk := c1Chunk,
    result := [PyJson.obj [("line", PyJson.num 1), ("text", PyJson.str "x")]] }

/-- A five-cell column: non-blank, null, blank, non-blank, non-blank. -/
def c5Col : List (Option (List Char)) :=
  [some ['a'], none, some [' ', ' '], some ['b'], some ['c']]

end TransClone

namespace TransClone

/-- C10: the response parser never reads its `expected_count` argument, so its
output is the same for any two counts; in particular it never rejects a result
for having the wrong number of items. -/
theorem C10_parse_ignores_expected_count
    (jsonLoads : List Char → Option PyJson)
    (reSearchTranslation : List Char → Option (List Char))
    (quoteRepair : List Char → List Char)
    (raw : List Char) (c1 c2 : Nat) :
    parse_translation_response jsonLoads reSearchTranslation quoteRepair raw c1 =
      parse_translation_response jsonLoads reSearchTranslation quoteRepair raw c2 := rfl

/-- C3: `_update_history` never appends anything — both `HistoryEntry(...)`
calls pass the keyword `parts`, which is not a field of the `HistoryEntry`
dataclass (it has `content`), so the constructor raises `TypeError` and the
surrounding `except` leaves the history unchanged.  The history therefore
grows by zero entries per translated chunk, not two. -/
theorem C3_update_history_appends_nothing
    (history : List HistoryEntry) (chunk : TranslationChunk) :
    update_history history chunk = history := rfl

/-- C1: with `max_retries = 3` and a model that raises on every attempt, the
graph invokes the model exactly 3 times, but because `_retry_translation`
clears `state.error` before `_should_continue_retry` gives up, the exhausted
chunk is finalized with status `"completed"`, an empty `error_message` and no
translations — not with status `"failed"` and the error recorded. -/
theorem C1_exhausted_retries_finalized_completed :
    ((run_translation_graph noJson noMatch noRepair true alwaysRaise 3 c1Chunk).1.chunk.status
        = "completed")
    ∧ ((run_translation_graph noJson noMatch noRepair true alwaysRaise 3 c1Chunk).1.chunk.error_message
        = "")
    ∧ ((run_translation_graph noJson noMatch noRepair true alwaysRaise 3 c1Chunk).1.chunk.translated_texts
        = [])
    ∧ ((run_translation_graph noJson noMatch noRepair true alwaysRaise 3 c1Chunk).2 = 3) :=
  ⟨rfl, rfl, rfl, rfl⟩

/-- C2 counterexample: the synchronous `translate_chunk` marks a two-line
chunk `"completed"` when the parsed response holds a single item, so on
success the length of `translated_texts` (here 1) need not equal the count of
non-blank source lines (here 2). -/
theorem C2_counterexample_completed_with_count_mismatch :
    ((translate_chunk decodeOneItem noMatch noRepair true
        (InvokeOutcome.response ['R']) c2Chunk).status = "completed")
    ∧ ((translate_chunk decodeOneItem noMatch noRepair true
        (InvokeOutcome.response ['R']) c2Chunk).translated_texts.length = 1)
    ∧ nonBlankSourceCount c2Chunk = 2 :=
  ⟨rfl, rfl, rfl⟩

/-- C4 counterexample: the validator accepts a result whose line-number set
strictly contains the expected set — here the result carries the extra line 2
for a chunk expecting only line 1, yet no error is set, so acceptance is not
"exactly when the sets match". -/
theorem C4_counterexample_extra_lines_accepted :
    ((validate_result c4State).error = "")
    ∧ ((resultLineVals c4State.result).any (pyIntEqJson 2) = true)
    ∧ ((expectedLineVals c4State.chunk).contains 2 = false) :=
  ⟨rfl, rfl, rfl⟩

/-- Every list filtered by a predicate satisfies that predicate everywhere. -/
theorem filter_all_self {α : Type} (p : α → Bool) (l : List α) :
    (l.filter p).all p = true := by
  rw [List.all_eq_true]
  intro a ha
  exact (List.mem_filter.mp ha).2

/-- The extraction stage yields either the empty list or a
`isWellFormedItem`-filtered list. -/
theorem extractTranslationItems_shape (o : Option PyJson) :
    extractTranslationItems o = [] ∨
      ∃ items : List PyJson, extractTranslationItems o = items.filter isWellFormedItem := by
  cases o with
  | none => exact Or.inl rfl
  | some data =>
    cases data with
    | obj kvs =>
      simp only [extractTranslationItems]
      cases h : lookupKey kvs "translation" with
      | none => exact Or.inl rfl
      | some t =>
        cases t with
        | arr items => exact Or.inr ⟨items, rfl⟩
        | null => exact Or.inl rfl
        | bool b => exact Or.inl rfl
        | num n => exact Or.inl rfl
        | str s => exact Or.inl rfl
        | obj kvs2 => exact Or.inl rfl
    | arr xs =>
      exact Or.inr ⟨xs, rfl⟩
    | null => exact Or.inl rfl
    | bool b => exact Or.inl rfl
    | num n => exact Or.inl rfl
    | str s => exact Or.inl rfl

/-- C8: the response parser is total and safe: whatever the decode, regex and
repair oracles do, every element of its output is a dict holding both a
`"line"` and a `"text"` key, and when every decode path fails (the regex
finds nothing, or every `json.loads` attempt errors) it returns `[]`. -/
theorem C8_parser_total_wellformed_or_empty
    (jsonLoads : List Char → Option PyJson)
    (reSearchTranslation : List Char → Option (List Char))
    (quoteRepair : List Char → List Char) (raw : List Char) (c : Nat) :
    ((parse_translation_response jsonLoads reSearchTranslation quoteRepair raw c).all
        isWellFormedItem = true)
    ∧ (jsonLoads (cleanOutput raw) = none → reSearchTranslation (cleanOutput raw) = none →
        parse_translation_response jsonLoads reSearchTranslation quoteRepair raw c = [])
    ∧ (∀ m, jsonLoads (cleanOutput raw) = none →
        reSearchTranslation (cleanOutput raw) = some m →
        jsonLoads m = none → jsonLoads (quoteRepair m) = none →
        parse_translation_response jsonLoads reSearchTranslation quoteRepair raw c = []) := by
  refine ⟨?_, ?_, ?_⟩
  · rcases extractTranslationItems_shape
        (decodeResponseData jsonLoads reSearchTranslation quoteRepair (cleanOutput raw)) with
      h | ⟨items, h⟩
    · simp [parse_translation_response, h]
    · simpa [parse_translation_response, h] using filter_all_self isWellFormedItem items
  · intro h1 h2
    simp [parse_translation_response, decodeResponseData, h1, h2, extractTranslationItems]
  · intro m h1 h2 h3 h4
    simp [parse_translation_response, decodeResponseData, h1, h2, h3, h4,
      extractTranslationItems]

/-- C8 witness: with decode and regex oracles that always fail, the parser
returns the empty, trivially well-formed list on a garbage input. -/
theorem C8_witness :
    ((parse_translation_response noJson noMatch noRepair ['g'] 0).all isWellFormedItem = true)
    ∧ parse_translation_response noJson noMatch noRepair ['g'] 0 = [] :=
  ⟨(C8_parser_total_wellformed_or_empty noJson noMatch noRepair ['g'] 0).1,
   (C8_parser_total_wellformed_or_empty noJson noMatch noRepair ['g'] 0).2.1 rfl rfl⟩

/-- C7: a well-formed provider response — a JSON object whose `"translation"`
array holds items that are dicts with `"line"` (matching, 1-based) and
`"text"` keys — parses to exactly those items, in order, hence to the
expected count. -/
theorem C7_wellformed_response_parses_exactly
    (jsonLoads : List Char → Option PyJson)
    (reSearchTranslation : List Char → Option (List Char))
    (quoteRepair : List Char → List Char)
    (raw : List Char) (c : Nat) (items : List PyJson)
    (hwf : items.all isWellFormedItem = true)
    (hlines : linesMatchFrom 1 items = true)
    (hdec : jsonLoads (cleanOutput raw) =
      some (PyJson.obj [("translation", PyJson.arr items)])) :
    parse_translation_response jsonLoads reSearchTranslation quoteRepair raw c = items
    ∧ (parse_translation_response jsonLoads reSearchTranslation quoteRepair raw c).length
        = items.length := by
  have hmain :
      parse_translation_response jsonLoads reSearchTranslation quoteRepair raw c = items := by
    simp only [parse_translation_response, decodeResponseData, hdec,
      extractTranslationItems, lookupKey, if_pos rfl]
    exact List.filter_eq_self.mpr (List.all_eq_true.mp hwf)
  exact ⟨hmain, by rw [hmain]⟩

/-- C7 witness: a concrete decode oracle mapping the raw text `R` to a
one-item translation object, parsed to exactly that item. -/
theorem C7_witness :
    ([demoItem].all isWellFormedItem = true)
    ∧ (linesMatchFrom 1 [demoItem] = true)
    ∧ parse_translation_response decodeOneItem noMatch noRepair ['R'] 5 = [demoItem] :=
  ⟨by decide, by decide,
   (C7_wellformed_response_parses_exactly decodeOneItem noMatch noRepair ['R'] 5 [demoItem]
      (by decide) (by decide) rfl).1⟩

/-- C2 amended: on failure the synchronous path only sets
`status = "failed"`, so a freshly built chunk (empty `translated_texts`)
stays empty; on success `translated_texts` holds exactly one entry per parsed
item — a count the engine never compares against the chunk's non-blank line
count. -/
theorem C2_amended_translated_tracks_parsed
    (jsonLoads : List Char → Option PyJson)
    (reSearchTranslation : List Char → Option (List Char))
    (quoteRepair : List Char → List Char)
    (avail : Bool) (outcome : InvokeOutcome) (chunk : TranslationChunk)
    (h0 : chunk.translated_texts = []) :
    (((translate_chunk jsonLoads reSearchTranslation quoteRepair avail outcome chunk).status
        = "failed" →
      (translate_chunk jsonLoads reSearchTranslation quoteRepair avail outcome chunk).translated_texts
        = []))
    ∧ (∀ raw, outcome = InvokeOutcome.response raw → avail = true →
        (parse_translation_response jsonLoads reSearchTranslation quoteRepair raw
            chunk.original_texts.length).isEmpty = false →
        (translate_chunk jsonLoads reSearchTranslation quoteRepair avail outcome chunk).status
          = "completed"
        ∧ (translate_chunk jsonLoads reSearchTranslation quoteRepair avail outcome
            chunk).translated_texts.length
          = (parse_translation_response jsonLoads reSearchTranslation quoteRepair raw
              chunk.original_texts.length).length) := by
  cases avail with
  | false =>
    refine ⟨fun _ => ?_, fun raw hr ha => ?_⟩
    · simpa [translate_chunk] using h0
    · simp at ha
  | true =>
    cases outcome with
    | exception m =>
      refine ⟨fun _ => ?_, fun raw hr ha => ?_⟩
      · simpa [translate_chunk] using h0
      · cases hr
    | response raw0 =>
      by_cases hp :
          (parse_translation_response jsonLoads reSearchTranslation quoteRepair raw0
            chunk.original_texts.length).isEmpty = true
      · refine ⟨fun _ => ?_, fun raw hr ha hne => ?_⟩
        · simpa [translate_chunk, hp] using h0
        · cases hr
          simp [hp] at hne
      · rw [Bool.not_eq_true] at hp
        refine ⟨fun hf => ?_, fun raw hr ha hne => ?_⟩
        · simp [translate_chunk, hp] at hf
        · cases hr
          constructor
          · simp [translate_chunk, hp]
          · simp [translate_chunk, hp]
/-- C2 amended witness: the two-line chunk is freshly built; on the one-item
response the chunk completes with `translated_texts` of length equal to the
parsed item count. -/
theorem C2_amended_witness :
    (c2Chunk.translated_texts = [])
    ∧ ((translate_chunk decodeOneItem noMatch noRepair true
          (InvokeOutcome.response ['R']) c2Chunk).status = "completed"
      ∧ (translate_chunk decodeOneItem noMatch noRepair true
          (InvokeOutcome.response ['R']) c2Chunk).translated_texts.length
        = (parse_translation_response decodeOneItem noMatch noRepair ['R']
            c2Chunk.original_texts.length).length) :=
  ⟨rfl,
   (C2_amended_translated_tracks_parsed decodeOneItem noMatch noRepair true
      (InvokeOutcome.response ['R']) c2Chunk rfl).2 ['R'] rfl rfl (by decide)⟩

/-- When every result item is a dict whose `"line"` value (if present) is
hashable, the set comprehension over the result lines raises nothing and
collects exactly the `"line"` fields. -/
theorem collectLines_of_all_obj (l : List PyJson) (h : l.all isObjJson = true)
    (hh : l.all lineValueHashable = true) :
    collectLines l = Except.ok (resultLineVals l) := by
  induction l with
  | nil => rfl
  | cons j rest ih =>
    rw [List.all_cons, Bool.and_eq_true] at h hh
    obtain ⟨hj, hrest⟩ := h
    obtain ⟨hhj, hhrest⟩ := hh
    cases j with
    | obj kvs =>
      simp only [collectLines, resultLineVals, List.filterMap_cons, jsonLineField]
      cases hk : lookupKey kvs "line" with
      | none => simpa [resultLineVals] using ih hrest hhrest
      | some v =>
        have hv : pyUnhashable v = false := by
          simpa [lineValueHashable, jsonLineField, hk] using hhj
        simp [hv, ih hrest hhrest, resultLineVals]
    | null => cases hj
    | bool b => cases hj
    | num n => cases hj
    | str s => cases hj
    | arr xs => cases hj

/-- C4 amended: on a dict-format result (reached with no prior error, a
non-empty result of dicts whose `"line"` values are hashable, and a
non-empty chunk), the validator accepts exactly when the expected line set is
a subset of the returned line set; missing expected lines set an error, while
extra returned lines are accepted. -/
theorem C4_amended_validator_checks_superset (s : GraphState)
    (he : s.error = "") (hr : s.result.isEmpty = false)
    (hobj : s.result.all isObjJson = true)
    (hhash : s.result.all lineValueHashable = true)
    (ho : s.chunk.original_texts.isEmpty = false) :
    ((validate_result s).error = "" ↔
      lineSubset (expectedLineVals s.chunk) (resultLineVals s.result) = true) := by
  cases hres : s.result with
  | nil => rw [hres] at hr; cases hr
  | cons h t =>
    rw [hres] at hobj hhash
    rw [List.all_cons, Bool.and_eq_true] at hobj
    obtain ⟨hh, ht⟩ := hobj
    cases h with
    | null => cases hh
    | bool b => cases hh
    | num n => cases hh
    | str sstr => cases hh
    | arr xs => cases hh
    | obj kvs =>
      cases horig : s.chunk.original_texts with
      | nil => rw [horig] at ho; cases ho
      | cons o orest =>
        have hcoll : collectLines (PyJson.obj kvs :: t)
            = Except.ok (resultLineVals (PyJson.obj kvs :: t)) := by
          apply collectLines_of_all_obj
          · rw [List.all_cons, Bool.and_eq_true]
            exact ⟨hh, ht⟩
          · exact hhash
        by_cases hs : lineSubset (expectedLineVals s.chunk)
            (resultLineVals (PyJson.obj kvs :: t)) = true
        · have hval : validate_result s = s := by
            simp [validate_result, hres, horig, hcoll, hs]
          rw [hval, he]
          simp [hs]
        · rw [Bool.not_eq_true] at hs
          have hval : (validate_result s).error = "Missing translation for lines" := by
            simp [validate_result, hres, horig, hcoll, hs]
          rw [hval]
          constructor
          · intro hcontra
            exact absurd hcontra (by decide)
          · intro hcontra
            simp [hcontra] at hs

/-- C4 amended witness: a result covering exactly the expected line with a
hashable line value is accepted, matching the subset characterisation. -/
theorem C4_amended_witness :
    (c4OkState.error = "" ∧ c4OkState.result.isEmpty = false
      ∧ c4OkState.result.all isObjJson = true
      ∧ c4OkState.result.all lineValueHashable = true
      ∧ c4OkState.chunk.original_texts.isEmpty = false)
    ∧ ((validate_result c4OkState).error = "" ↔
        lineSubset (expectedLineVals c4OkState.chunk) (resultLineVals c4OkState.result) = true) :=
  ⟨⟨rfl, rfl, by decide, by decide, rfl⟩,
   C4_amended_validator_checks_superset c4OkState rfl rfl (by decide) (by decide) rfl⟩

/-- Sanity check of the restored error path: a result whose second item
carries the unhashable line value `[2]` makes the set comprehension raise
`TypeError`, so `_validate_result` records a validation error even though the
expected line 1 is covered. -/
theorem validate_result_unhashable_line_errors :
    (validate_result
        { chunk := c1Chunk,
          result :=
            [PyJson.obj [("line", PyJson.num 1), ("text", PyJson.str "x")],
             PyJson.obj [("line", PyJson.arr [PyJson.num 2]), ("text", PyJson.str "y")]] }).error
      = "Validation error" := rfl

/-- Position `j` of the batch result is the translation of position `j` of
the input with the `j`-th invocation outcome (indices offset by the loop
start). -/
theorem translate_chunks_from_getElem?
    (jsonLoads : List Char → Option PyJson)
    (reSearchTranslation : List Char → Option (List Char))
    (quoteRepair : List Char → List Char)
    (avail : Bool) (outcomes : Nat → InvokeOutcome) :
    ∀ (chunks : List TranslationChunk) (i j : Nat),
      (translate_chunks_from jsonLoads reSearchTranslation quoteRepair avail outcomes i
          chunks)[j]? =
        (chunks[j]?).map
          (fun c => translate_chunk jsonLoads reSearchTranslation quoteRepair avail
            (outcomes (i + j)) c) := by
  intro chunks
  induction chunks with
  | nil => intro i j; simp [translate_chunks_from]
  | cons c rest ih =>
    intro i j
    cases j with
    | zero => simp [translate_chunks_from]
    | succ j =>
      rw [translate_chunks_from, List.getElem?_cons_succ, List.getElem?_cons_succ, ih (i + 1) j]
      have : i + 1 + j = i + (j + 1) := by omega
      rw [this]

/-- The batch result has the length of the input batch. -/
theorem translate_chunks_from_length
    (jsonLoads : List Char → Option PyJson)
    (reSearchTranslation : List Char → Option (List Char))
    (quoteRepair : List Char → List Char)
    (avail : Bool) (outcomes : Nat → InvokeOutcome) :
    ∀ (chunks : List TranslationChunk) (i : Nat),
      (translate_chunks_from jsonLoads reSearchTranslation quoteRepair avail outcomes i
          chunks).length = chunks.length := by
  intro chunks
  induction chunks with
  | nil => intro i; rfl
  | cons c rest ih => intro i; simp [translate_chunks_from, ih (i + 1)]

/-- C9: `translate_chunks` returns one chunk per input chunk, in order, each
position depending only on its own chunk and its own invocation outcome; a
chunk whose invocation raises, or whose response parses to nothing, comes
back with status `"failed"` while every other position is still translated
independently. -/
theorem C9_batch_is_positionwise_and_failures_local
    (jsonLoads : List Char → Option PyJson)
    (reSearchTranslation : List Char → Option (List Char))
    (quoteRepair : List Char → List Char)
    (outcomes : Nat → InvokeOutcome) (chunks : List TranslationChunk) :
    ((translate_chunks jsonLoads reSearchTranslation quoteRepair true outcomes chunks).length
        = chunks.length)
    ∧ (∀ j, (translate_chunks jsonLoads reSearchTranslation quoteRepair true outcomes
          chunks)[j]? =
        (chunks[j]?).map
          (fun c => translate_chunk jsonLoads reSearchTranslation quoteRepair true
            (outcomes j) c))
    ∧ (∀ j c m, chunks[j]? = some c → outcomes j = InvokeOutcome.exception m →
        (translate_chunks jsonLoads reSearchTranslation quoteRepair true outcomes chunks)[j]?
          = some { c with status := "failed" })
    ∧ (∀ j c raw, chunks[j]? = some c → outcomes j = InvokeOutcome.response raw →
        (parse_translation_response jsonLoads reSearchTranslation quoteRepair raw
            c.original_texts.length).isEmpty = true →
        (translate_chunks jsonLoads reSearchTranslation quoteRepair true outcomes chunks)[j]?
          = some { c with status := "failed" }) := by
  have hget := translate_chunks_from_getElem? jsonLoads reSearchTranslation quoteRepair true
    outcomes chunks 0
  have hget' : ∀ j, (translate_chunks jsonLoads reSearchTranslation quoteRepair true outcomes
      chunks)[j]? =
      (chunks[j]?).map
        (fun c => translate_chunk jsonLoads reSearchTranslation quoteRepair true
          (outcomes j) c) := by
    intro j
    have := hget j
    simpa [translate_chunks] using this
  refine ⟨?_, hget', ?_, ?_⟩
  · exact translate_chunks_from_length jsonLoads reSearchTranslation quoteRepair true outcomes
      chunks 0
  · intro j c m hc hm
    rw [hget' j, hc]
    simp [translate_chunk, hm]
  · intro j c raw hc hraw hp
    rw [hget' j, hc]
    simp [translate_chunk, hraw, hp]

/-- C9 witness: a one-chunk batch whose single invocation raises comes back
with that chunk failed. -/
theorem C9_witness :
    ([c1Chunk][0]? = some c1Chunk)
    ∧ (alwaysRaise 0 = InvokeOutcome.exception "boom")
    ∧ (translate_chunks noJson noMatch noRepair true alwaysRaise [c1Chunk])[0]?
        = some { c1Chunk with status := "failed" } :=
  ⟨rfl, rfl,
   (C9_batch_is_positionwise_and_failures_local noJson noMatch noRepair alwaysRaise
      [c1Chunk]).2.2.1 0 c1Chunk "boom" rfl rfl⟩

/-- C6 counterexample: on the input `ab}{` (which ends in neither `}` nor `]`
and has the non-trivial fully balanced prefix `ab`), the repair step keeps the
whole string — the code truncates at the last position where the net counts
are zero, not to the longest fully balanced prefix. -/
theorem C6_counterexample_net_count_not_balance :
    (['}'].isSuffixOf ['a', 'b', '}', '{'] = false)
    ∧ ("]".toList.isSuffixOf ['a', 'b', '}', '{'] = false)
    ∧ longestBalancedPrefixLen ['a', 'b', '}', '{'] = 2
    ∧ fixIncompleteJson ['a', 'b', '}', '{'] ≠
        (['a', 'b', '}', '{'].take (longestBalancedPrefixLen ['a', 'b', '}', '{'])) := by
  refine ⟨rfl, rfl, by decide, by decide⟩

/-- Net brace counts add over concatenation. -/
theorem braceNet_append (a b : List Char) : braceNet (a ++ b) = braceNet a + braceNet b := by
  induction a with
  | nil => simp [braceNet]
  | cons c rest ih => simp [braceNet, ih]; ring

/-- Net bracket counts add over concatenation. -/
theorem bracketNet_append (a b : List Char) :
    bracketNet (a ++ b) = bracketNet a + bracketNet b := by
  induction a with
  | nil => simp [bracketNet]
  | cons c rest ih => simp [bracketNet, ih]; ring

/-- Invariant of the code's scan: having consumed the prefix `pre` of `cs`
with the running counts and the greatest net-zero position seen so far, the
scan of the remainder computes the greatest net-zero position of all of
`cs`. -/
theorem scanLastZero_eq_findGreatest (cs : List Char) :
    ∀ (rest pre : List Char), cs = pre ++ rest →
      scanLastZero pre.length (braceNet pre) (bracketNet pre)
        (Nat.findGreatest (netZeroPrefixPos cs) (pre.length - 1)) rest
      = Nat.findGreatest (netZeroPrefixPos cs) (cs.length - 1) := by
  intro rest
  induction rest with
  | nil =>
    intro pre hpre
    rw [List.append_nil] at hpre
    subst hpre
    rfl
  | cons c rest' ih =>
    intro pre hpre
    have hcs' : cs = (pre ++ [c]) ++ rest' := by
      rw [hpre, List.append_assoc]
      rfl
    have hstep : scanLastZero pre.length (braceNet pre) (bracketNet pre)
        (Nat.findGreatest (netZeroPrefixPos cs) (pre.length - 1)) (c :: rest')
        = scanLastZero (pre.length + 1) (braceNet pre + braceDelta c)
            (bracketNet pre + bracketDelta c)
            (if braceNet pre + braceDelta c = 0 ∧ bracketNet pre + bracketDelta c = 0
                ∧ 0 < pre.length
             then pre.length
             else Nat.findGreatest (netZeroPrefixPos cs) (pre.length - 1)) rest' := rfl
    rw [hstep]
    have e1 : (pre ++ [c]).length = pre.length + 1 := by simp
    have e2 : braceNet (pre ++ [c]) = braceNet pre + braceDelta c := by
      rw [braceNet_append]
      simp [braceNet]
    have e3 : bracketNet (pre ++ [c]) = bracketNet pre + bracketDelta c := by
      rw [bracketNet_append]
      simp [bracketNet]
    have htake : cs.take (pre.length + 1) = pre ++ [c] := by
      rw [hcs', ← e1, List.take_left]
    have e4 : Nat.findGreatest (netZeroPrefixPos cs) ((pre ++ [c]).length - 1)
        = (if braceNet pre + braceDelta c = 0 ∧ bracketNet pre + bracketDelta c = 0
              ∧ 0 < pre.length
           then pre.length
           else Nat.findGreatest (netZeroPrefixPos cs) (pre.length - 1)) := by
      have hlen : (pre ++ [c]).length - 1 = pre.length := by simp
      rw [hlen]
      cases hp : pre.length with
      | zero =>
        rw [if_neg (by simp)]
      | succ t =>
        rw [Nat.findGreatest_succ]
        by_cases hcond : braceNet pre + braceDelta c = 0 ∧ bracketNet pre + bracketDelta c = 0
        · have hP : netZeroPrefixPos cs (t + 1) := by
            refine ⟨by omega, ?_, ?_⟩
            · rw [show t + 1 + 1 = pre.length + 1 by omega, htake, e2]
              exact hcond.1
            · rw [show t + 1 + 1 = pre.length + 1 by omega, htake, e3]
              exact hcond.2
          rw [if_pos hP, if_pos ⟨hcond.1, hcond.2, by omega⟩]
        · have hnP : ¬ netZeroPrefixPos cs (t + 1) := by
            intro hP
            refine hcond ⟨?_, ?_⟩
            · rw [← e2, ← htake, show pre.length + 1 = t + 1 + 1 by omega]
              exact hP.2.1
            · rw [← e3, ← htake, show pre.length + 1 = t + 1 + 1 by omega]
              exact hP.2.2
          rw [if_neg hnP, if_neg (fun h => hcond ⟨h.1, h.2.1⟩)]
          rfl
    have := ih (pre ++ [c]) hcs'
    rw [e4, e1, e2, e3] at this
    exact this

/-- C6 amended: after the fence/ellipsis stripping, a string ending in
neither `}` nor `]` is truncated to the prefix ending at the last position
`j ≥ 1` at which the net `{`/`}` and `[`/`]` counts are both zero (when such a
position exists; otherwise it is left unchanged) — not to its longest fully
balanced prefix. -/
theorem C6_amended_truncates_to_last_net_zero (cs : List Char)
    (h1 : ['}'].isSuffixOf cs = false) (h2 : "]".toList.isSuffixOf cs = false) :
    fixIncompleteJson cs =
      (if 0 < Nat.findGreatest (netZeroPrefixPos cs) (cs.length - 1)
       then cs.take (Nat.findGreatest (netZeroPrefixPos cs) (cs.length - 1) + 1)
       else cs) := by
  have hscan : scanLastZero 0 0 0 0 cs
      = Nat.findGreatest (netZeroPrefixPos cs) (cs.length - 1) := by
    have := scanLastZero_eq_findGreatest cs cs [] rfl
    simpa [braceNet, bracketNet] using this
  unfold fixIncompleteJson
  rw [if_neg (by rw [h1, h2]; simp)]
  simp only [hscan]

/-- C6 amended witness: on `{} x` the last net-zero position is 3, so the
repair keeps the whole string. -/
theorem C6_amended_witness :
    (['}'].isSuffixOf ['{', '}', ' ', 'x'] = false)
    ∧ ("]".toList.isSuffixOf ['{', '}', ' ', 'x'] = false)
    ∧ fixIncompleteJson ['{', '}', ' ', 'x'] =
        (if 0 < Nat.findGreatest (netZeroPrefixPos ['{', '}', ' ', 'x'])
              (['{', '}', ' ', 'x'].length - 1)
         then ['{', '}', ' ', 'x'].take
              (Nat.findGreatest (netZeroPrefixPos ['{', '}', ' ', 'x'])
                (['{', '}', ' ', 'x'].length - 1) + 1)
         else ['{', '}', ' ', 'x']) :=
  ⟨rfl, rfl, C6_amended_truncates_to_last_net_zero ['{', '}', ' ', 'x'] rfl rfl⟩

/-- On rows whose stripped text is non-blank, the item builder keeps every
row. -/
theorem mkChunkItems_length (cid : Nat) :
    ∀ (rows : List (Nat × List Char)) (pos : Nat),
      (∀ p ∈ rows, (pyStrip p.2).isEmpty = false) →
      (mkChunkItems cid pos rows).length = rows.length := by
  intro rows
  induction rows with
  | nil => intro pos _; rfl
  | cons r rest ih =>
    intro pos h
    obtain ⟨i, s⟩ := r
    have hr : (pyStrip s).isEmpty = false := h (i, s) (List.mem_cons_self _ _)
    simp only [mkChunkItems, hr, Bool.false_eq_true, if_false, List.length_cons]
    rw [ih (pos + 1) (fun p hp => h p (List.mem_cons_of_mem _ hp))]

/-- Every built item comes from a row of the slice: its line number is the
row index plus one and its text is the stripped, non-blank row text. -/
theorem mkChunkItems_mem (cid : Nat) :
    ∀ (rows : List (Nat × List Char)) (pos : Nat) (it : SourceItem),
      it ∈ mkChunkItems cid pos rows →
      ∃ p ∈ rows, it.line = p.1 + 1 ∧ it.text = pyStrip p.2
        ∧ (pyStrip p.2).isEmpty = false := by
  intro rows
  induction rows with
  | nil => intro pos it h; simp [mkChunkItems] at h
  | cons r rest ih =>
    intro pos it h
    obtain ⟨i, s⟩ := r
    by_cases hs : (pyStrip s).isEmpty = true
    · simp only [mkChunkItems, hs, if_true] at h
      obtain ⟨p, hp, hrest⟩ := ih (pos + 1) it h
      exact ⟨p, List.mem_cons_of_mem _ hp, hrest⟩
    · rw [Bool.not_eq_true] at hs
      simp only [mkChunkItems, hs, Bool.false_eq_true, if_false] at h
      rcases List.mem_cons.mp h with heq | hmem
      · exact ⟨(i, s), List.mem_cons_self _ _, by rw [heq], by rw [heq], hs⟩
      · obtain ⟨p, hp, hrest⟩ := ih (pos + 1) it hmem
        exact ⟨p, List.mem_cons_of_mem _ hp, hrest⟩

/-- Strictly increasing row indices give strictly increasing line numbers. -/
theorem mkChunkItems_pairwise (cid : Nat) :
    ∀ (rows : List (Nat × List Char)) (pos : Nat),
      rows.Pairwise (fun a b => a.1 < b.1) →
      (mkChunkItems cid pos rows).Pairwise (fun a b => a.line < b.line) := by
  intro rows
  induction rows with
  | nil => intro pos _; simp [mkChunkItems]
  | cons r rest ih =>
    intro pos h
    obtain ⟨i, s⟩ := r
    rw [List.pairwise_cons] at h
    obtain ⟨hhead, htail⟩ := h
    by_cases hs : (pyStrip s).isEmpty = true
    · simp only [mkChunkItems, hs, if_true]
      exact ih (pos + 1) htail
    · rw [Bool.not_eq_true] at hs
      simp only [mkChunkItems, hs, Bool.false_eq_true, if_false]
      rw [List.pairwise_cons]
      refine ⟨?_, ih (pos + 1) htail⟩
      intro it hit
      obtain ⟨p, hp, hline, -, -⟩ := mkChunkItems_mem cid rest (pos + 1) it hit
      have hlt := hhead p hp
      rw [hline]
      exact Nat.succ_lt_succ hlt

/-- Every filtered row points back at a non-null, non-blank cell of the
column at its recorded index. -/
theorem nonEmptyData_mem (col : List (Option (List Char))) (p : Nat × List Char)
    (hp : p ∈ nonEmptyData col) :
    ∃ s : List Char, col[p.1]? = some (some s) ∧ p.2 = s
      ∧ (pyStrip s).isEmpty = false := by
  unfold nonEmptyData at hp
  obtain ⟨q, hq, hpq⟩ := List.mem_map.mp hp
  obtain ⟨hqenum, hqblank⟩ := List.mem_filter.mp hq
  obtain ⟨i, cell⟩ := q
  cases cell with
  | none => simp [notBlankCell] at hqblank
  | some s =>
    have hmem := List.mem_enum hqenum
    subst hpq
    refine ⟨s, ?_, rfl, ?_⟩
    · rw [List.getElem?_eq_getElem hmem.1, ← hmem.2]
    · simpa [notBlankCell] using hqblank

/-- The filtered rows carry strictly increasing original indices. -/
theorem nonEmptyData_pairwise (col : List (Option (List Char))) :
    (nonEmptyData col).Pairwise (fun a b => a.1 < b.1) := by
  unfold nonEmptyData
  have h1 : (col.enum.map Prod.fst).Pairwise (fun a b => a < b) := by
    rw [List.enum_map_fst]
    exact List.pairwise_lt_range _
  have h2 : col.enum.Pairwise (fun a b => a.1 < b.1) := List.pairwise_map.mp h1
  have h3 := h2.filter (fun p => notBlankCell p.2)
  exact List.pairwise_map.mpr h3

/-- Every filtered row is non-blank. -/
theorem nonEmptyData_allNB (col : List (Option (List Char))) :
    ∀ p ∈ nonEmptyData col, (pyStrip p.2).isEmpty = false := by
  intro p hp
  obtain ⟨s, -, hps, hnb⟩ := nonEmptyData_mem col p hp
  rw [hps]
  exact hnb

/-- With no `max_chunks` cap and non-blank rows, the builder emits one chunk
per `chunk_size`-slice: `ceil(rows / n)` chunks. -/
theorem buildChunks_length_nomax (n : Nat) (hn : 0 < n) :
    ∀ (k : Nat) (rows : List (Nat × List Char)) (acc : Nat),
      rows.length ≤ k →
      (∀ p ∈ rows, (pyStrip p.2).isEmpty = false) →
      (buildChunks n none acc rows).length = (rows.length + n - 1) / n := by
  intro k
  induction k with
  | zero =>
    intro rows acc hk _
    have hnil : rows = [] := List.eq_nil_of_length_eq_zero (by omega)
    subst hnil
    simp only [buildChunks, List.length_nil]
    symm
    apply Nat.div_eq_of_lt
    omega
  | succ k ih =>
    intro rows acc hk hnb
    cases rows with
    | nil =>
      simp only [buildChunks, List.length_nil]
      symm
      apply Nat.div_eq_of_lt
      omega
    | cons r rest =>
      have hsliceNB : ∀ p ∈ r :: rest.take (n - 1), (pyStrip p.2).isEmpty = false := by
        intro p hp
        rcases List.mem_cons.mp hp with h | h
        · subst h
          exact hnb p (List.mem_cons_self _ _)
        · exact hnb p (List.mem_cons_of_mem r (List.take_subset _ _ h))
      have hlenItems : (mkChunkItems acc 0 (r :: rest.take (n - 1))).length
          = (r :: rest.take (n - 1)).length := mkChunkItems_length acc _ 0 hsliceNB
      have hne : (mkChunkItems acc 0 (r :: rest.take (n - 1))).isEmpty = false := by
        cases hE : (mkChunkItems acc 0 (r :: rest.take (n - 1))).isEmpty
        · rfl
        · rw [List.isEmpty_iff] at hE
          rw [hE] at hlenItems
          simp at hlenItems
      rw [buildChunks]
      simp only [hne, Bool.false_eq_true, if_false, stopAfterChunks, List.length_cons]
      have hdroplen : (rest.drop (n - 1)).length = rest.length - (n - 1) :=
        List.length_drop _ _
      simp only [List.length_cons] at hk
      have hih := ih (rest.drop (n - 1)) (acc + 1)
        (by rw [hdroplen]; omega)
        (fun p hp => hnb p (List.mem_cons_of_mem r (List.drop_subset _ _ hp)))
      rw [hih, hdroplen]
      have hm : rest.length + 1 + n - 1 = rest.length + n := by omega
      rw [hm, Nat.add_div_right _ hn]
      rcases Nat.lt_or_ge rest.length n with hlt | hge
      · have h0 : rest.length - (n - 1) = 0 := by omega
        rw [h0, Nat.div_eq_of_lt (by omega), Nat.div_eq_of_lt hlt]
      · have h2 : rest.length - (n - 1) + n - 1 = (rest.length - n) + n := by omega
        rw [h2, Nat.add_div_right _ hn]
        have h3 : rest.length / n = (rest.length - n) / n + 1 := by
          conv_lhs => rw [show rest.length = rest.length - n + n by omega]
          exact Nat.add_div_right _ hn
        rw [h3]

/-- Every emitted chunk's items are the items of a slice of the input rows
(so a sublist of the rows), built with the chunk's id. -/
theorem buildChunks_mem (n : Nat) (mc : Option Nat) :
    ∀ (k : Nat) (rows : List (Nat × List Char)) (acc : Nat) (c : TranslationChunk),
      rows.length ≤ k → c ∈ buildChunks n mc acc rows →
      ∃ (cid : Nat) (slice : List (Nat × List Char)),
        slice.Sublist rows ∧ c.original_texts = mkChunkItems cid 0 slice := by
  intro k
  induction k with
  | zero =>
    intro rows acc c hk hc
    have hnil : rows = [] := List.eq_nil_of_length_eq_zero (by omega)
    subst hnil
    simp [buildChunks] at hc
  | succ k ih =>
    intro rows acc c hk hc
    cases rows with
    | nil => simp [buildChunks] at hc
    | cons r rest =>
      have hsliceSub : (r :: rest.take (n - 1)).Sublist (r :: rest) :=
        List.Sublist.cons₂ r (List.take_sublist _ _)
      have hdropSub : (rest.drop (n - 1)).Sublist (r :: rest) :=
        (List.drop_sublist _ _).cons r
      have hdroplen : (rest.drop (n - 1)).length ≤ k := by
        rw [List.length_drop]
        simp only [List.length_cons] at hk
        omega
      rw [buildChunks] at hc
      by_cases hE : (mkChunkItems acc 0 (r :: rest.take (n - 1))).isEmpty = true
      · simp only [hE, if_true] at hc
        by_cases hstop : stopAfterChunks mc acc = true
        · simp [hstop] at hc
        · rw [Bool.not_eq_true] at hstop
          simp only [hstop, Bool.false_eq_true, if_false] at hc
          obtain ⟨cid, slice, hsub, horig⟩ := ih (rest.drop (n - 1)) acc c hdroplen hc
          exact ⟨cid, slice, hsub.trans hdropSub, horig⟩
      · rw [Bool.not_eq_true] at hE
        simp only [hE, Bool.false_eq_true, if_false] at hc
        by_cases hstop : stopAfterChunks mc (acc + 1) = true
        · simp only [hstop, if_true, List.mem_singleton] at hc
          exact ⟨acc, r :: rest.take (n - 1), hsliceSub, by rw [hc]⟩
        · rw [Bool.not_eq_true] at hstop
          simp only [hstop, Bool.false_eq_true, if_false] at hc
          rcases List.mem_cons.mp hc with heq | hmem
          · exact ⟨acc, r :: rest.take (n - 1), hsliceSub, by rw [heq]⟩
          · obtain ⟨cid, slice, hsub, horig⟩ := ih (rest.drop (n - 1)) (acc + 1) c hdroplen hmem
            exact ⟨cid, slice, hsub.trans hdropSub, horig⟩

/-- C5: for every column and every chunk size `N ≥ 1` with no `max_chunks`
cap, the builder emits exactly `ceil(non-blank-rows / N)` chunks; every item
of every chunk is the stripped text of a non-blank source cell, tagged with
that cell's index plus one; and within each chunk the line numbers are
strictly increasing. -/
theorem C5_chunk_builder (col : List (Option (List Char))) (N : Nat) (hN : 1 ≤ N) :
    ((prepare_optimized_translation_chunks col (some N) none).length
        = ((nonEmptyData col).length + N - 1) / N)
    ∧ (∀ c ∈ prepare_optimized_translation_chunks col (some N) none,
        ∀ it ∈ c.original_texts,
          ∃ s : List Char, col[it.line - 1]? = some (some s)
            ∧ it.text = pyStrip s ∧ (pyStrip s).isEmpty = false)
    ∧ (∀ c ∈ prepare_optimized_translation_chunks col (some N) none,
        (c.original_texts.map SourceItem.line).Pairwise (fun a b => a < b)) := by
  have hexp : prepare_optimized_translation_chunks col (some N) none
      = buildChunks N none 0 (nonEmptyData col) := by
    unfold prepare_optimized_translation_chunks
    cases N with
    | zero => exact absurd hN (by omega)
    | succ m => rfl
  refine ⟨?_, ?_, ?_⟩
  · rw [hexp]
    exact buildChunks_length_nomax N (by omega) (nonEmptyData col).length
      (nonEmptyData col) 0 le_rfl (nonEmptyData_allNB col)
  · intro c hc it hit
    rw [hexp] at hc
    obtain ⟨cid, slice, hsub, horig⟩ := buildChunks_mem N none (nonEmptyData col).length
      (nonEmptyData col) 0 c le_rfl hc
    rw [horig] at hit
    obtain ⟨p, hp, hline, htext, -⟩ := mkChunkItems_mem cid slice 0 it hit
    obtain ⟨s, hget, hps, hnb⟩ := nonEmptyData_mem col p (hsub.subset hp)
    refine ⟨s, ?_, ?_, hnb⟩
    · rw [hline]
      simpa using hget
    · rw [htext, hps]
  · intro c hc
    rw [hexp] at hc
    obtain ⟨cid, slice, hsub, horig⟩ := buildChunks_mem N none (nonEmptyData col).length
      (nonEmptyData col) 0 c le_rfl hc
    rw [horig, List.pairwise_map]
    exact mkChunkItems_pairwise cid slice 0
      (List.Pairwise.sublist hsub (nonEmptyData_pairwise col))

/-- C5 witness: the five-cell demo column has three non-blank rows, so chunk
size 2 yields two chunks. -/
theorem C5_witness :
    1 ≤ 2
    ∧ (prepare_optimized_translation_chunks c5Col (some 2) none).length
        = ((nonEmptyData c5Col).length + 2 - 1) / 2 :=
  ⟨by omega, (C5_chunk_builder c5Col 2 (by omega)).1⟩

end TransClone
